import Mathlib

/-!
Verification of the chat-client session core in `src/components/chat.rs`
(a Yew component). The component's protocol handling is shallowly embedded:

* JSON texts are modelled by an executable parser/printer pair
  (`jsonParse` / the `wsEncode` printer) standing for `serde_json`;
* the derived `Serialize`/`Deserialize` instances of `WebSocketMessage`,
  `MsgTypes` and `MessageData` are modelled by `wsFromJson`, `mdFromJson`
  and the `wsEncodeChars` printer, following serde's derived semantics
  (camelCase / lowercase renames, `Option` fields absent or `null` mapping
  to `None`, unknown fields ignored, duplicate fields rejected, unknown
  enum variants rejected);
* `Chat::update`'s two arms become `handleMsg` (for `Msg::HandleMsg`) and
  `submitMessage` (for `Msg::SubmitMessage`); a Rust `.unwrap()` panic is
  modelled as `Option.none` (no successor state);
* `Chat::create` becomes `chatCreate`.
-/

namespace YewChat

/-- JSON values, the model of `serde_json::Value` as produced by parsing a
text frame. Number literals are kept as their raw lexeme: the protocol never
carries numbers, and any number in a typed position is a type error. -/
inductive Json where
  | null
  | bool (b : Bool)
  | num (lit : String)
  | str (s : String)
  | arr (elems : List Json)
  | obj (fields : List (String × Json))

/-- Whitespace accepted between JSON tokens. -/
def isWs (c : Char) : Bool :=
  c = ' ' || c = '\t' || c = '\n' || c = '\r'

def skipWs : List Char → List Char
  | [] => []
  | c :: cs => if isWs c then skipWs cs else c :: cs

/-- Value of a hexadecimal digit, read off the code point: `0`–`9` occupy
48–57, `A`–`F` occupy 65–70 and `a`–`f` occupy 97–102 in ASCII. -/
def hexVal (c : Char) : Option Nat :=
  let p := c.toNat
  if 48 ≤ p ∧ p ≤ 57 then some (p - 48)
  else if 97 ≤ p ∧ p ≤ 102 then some (p - 87)
  else if 65 ≤ p ∧ p ≤ 70 then some (p - 55)
  else none

/-- Meaning of a single-character string escape `\e`. -/
def escChar : Char → Option Char
  | '"' => some '"'
  | '\\' => some '\\'
  | '/' => some '/'
  | 'b' => some (Char.ofNat 8)
  | 'f' => some (Char.ofNat 12)
  | 'n' => some '\n'
  | 'r' => some '\r'
  | 't' => some '\t'
  | _ => none

/-- Body of a JSON string literal, after the opening quote: returns the
decoded characters and the input following the closing quote. Unescaped
control characters are rejected, as `serde_json` rejects them. (Surrogate
pair escapes are out of the model; the protocol's payloads never need
them.) -/
def parseStringBody : List Char → Option (List Char × List Char)
  | [] => none
  | c :: rest =>
    if c = '"' then some ([], rest)
    else if c = '\\' then
      match rest with
      | 'u' :: h1 :: h2 :: h3 :: h4 :: rest' =>
        match hexVal h1, hexVal h2, hexVal h3, hexVal h4 with
        | some a, some b, some c2, some d =>
          let n := ((a * 16 + b) * 16 + c2) * 16 + d
          if Nat.isValidChar n then
            match parseStringBody rest' with
            | some (s, r) => some (Char.ofNat n :: s, r)
            | none => none
          else none
        | _, _, _, _ => none
      | e :: rest' =>
        match escChar e with
        | some c' =>
          match parseStringBody rest' with
          | some (s, r) => some (c' :: s, r)
          | none => none
        | none => none
      | [] => none
    else if c.toNat < 32 then none
    else
      match parseStringBody rest with
      | some (s, r) => some (c :: s, r)
      | none => none

/-- Characters that may occur in a number lexeme. -/
def numChar (c : Char) : Bool :=
  c.isDigit || c = '-' || c = '+' || c = '.' || c = 'e' || c = 'E'

/-- Lexes a number literal (kept raw; see `Json.num`). -/
def parseNumber (cs : List Char) : Option (Json × List Char) :=
  match cs.span numChar with
  | (lit, rest) => if lit.isEmpty then none else some (Json.num (String.mk lit), rest)

/-- Expects the given literal characters as a prefix of the input. -/
def expectLit : List Char → List Char → Option (List Char)
  | [], cs => some cs
  | l :: ls, c :: cs => if c = l then expectLit ls cs else none
  | _ :: _, [] => none

mutual

/-- Recursive-descent JSON value parser, fuelled for termination. Fuel is
spent on each nesting step and on each aggregate element, so any fuel of at
least the input's length suffices (each element or nesting level consumes
input characters). -/
def parseValue : Nat → List Char → Option (Json × List Char)
  | 0, _ => none
  | fuel + 1, cs =>
    match skipWs cs with
    | [] => none
    | c :: rest =>
      if c = 'n' then
        match expectLit ['u', 'l', 'l'] rest with
        | some r => some (Json.null, r)
        | none => none
      else if c = 't' then
        match expectLit ['r', 'u', 'e'] rest with
        | some r => some (Json.bool true, r)
        | none => none
      else if c = 'f' then
        match expectLit ['a', 'l', 's', 'e'] rest with
        | some r => some (Json.bool false, r)
        | none => none
      else if c = '"' then
        match parseStringBody rest with
        | some (s, r) => some (Json.str (String.mk s), r)
        | none => none
      else if c = '[' then
        match skipWs rest with
        | ']' :: r => some (Json.arr [], r)
        | cs' =>
          match parseElems fuel cs' with
          | some (vs, r) => some (Json.arr vs, r)
          | none => none
      else if c = '\x7b' then
        match skipWs rest with
        | '\x7d' :: r => some (Json.obj [], r)
        | cs' =>
          match parseFields fuel cs' with
          | some (fs, r) => some (Json.obj fs, r)
          | none => none
      else if c = '-' || c.isDigit then parseNumber (c :: rest)
      else none

/-- Comma-separated values of a non-empty JSON array, up to `]`. -/
def parseElems : Nat → List Char → Option (List Json × List Char)
  | 0, _ => none
  | fuel + 1, cs =>
    match parseValue fuel cs with
    | none => none
    | some (v, r) =>
      match skipWs r with
      | ',' :: r' =>
        match parseElems fuel r' with
        | some (vs, r2) => some (v :: vs, r2)
        | none => none
      | ']' :: r' => some ([v], r')
      | _ => none

/-- Comma-separated `"key": value` pairs of a non-empty JSON object, up to
the closing brace. -/
def parseFields : Nat → List Char → Option (List (String × Json) × List Char)
  | 0, _ => none
  | fuel + 1, cs =>
    match skipWs cs with
    | '"' :: r =>
      match parseStringBody r with
      | none => none
      | some (k, r1) =>
        match skipWs r1 with
        | ':' :: r2 =>
          match parseValue fuel r2 with
          | none => none
          | some (v, r3) =>
            match skipWs r3 with
            | ',' :: r4 =>
              match parseFields fuel r4 with
              | some (fs, r5) => some ((String.mk k, v) :: fs, r5)
              | none => none
            | '\x7d' :: r4 => some ([(String.mk k, v)], r4)
            | _ => none
        | _ => none
    | _ => none

end

/-- Model of `serde_json` text parsing: parses one JSON value followed by
optional whitespace. -/
def jsonParse (s : String) : Option Json :=
  match parseValue (s.length + 1) s.data with
  | some (v, r) => if (skipWs r).isEmpty then some v else none
  | none => none

/-! ## The printer, modelling `serde_json::to_string` -/

/-- Hex digit character, lowercase, as emitted by `serde_json`. -/
def hexDigit (n : Nat) : Char :=
  if n < 10 then Char.ofNat ('0'.toNat + n) else Char.ofNat ('a'.toNat + n - 10)

/-- Escaping of one character inside a JSON string literal, exactly as
`serde_json` emits it: quote, backslash, and control characters (with the
short escapes for backspace, tab, newline, form feed, carriage return). -/
def escapeChar (c : Char) : List Char :=
  if c = '"' then ['\\', '"']
  else if c = '\\' then ['\\', '\\']
  else if c.toNat = 8 then ['\\', 'b']
  else if c = '\t' then ['\\', 't']
  else if c = '\n' then ['\\', 'n']
  else if c.toNat = 12 then ['\\', 'f']
  else if c = '\r' then ['\\', 'r']
  else if c.toNat < 32 then
    ['\\', 'u', '0', '0', hexDigit (c.toNat / 16), hexDigit (c.toNat % 16)]
  else [c]

def escapeChars : List Char → List Char
  | [] => []
  | c :: cs => escapeChar c ++ escapeChars cs

/-- Printed form of a JSON string literal. -/
def printStrChars (s : String) : List Char :=
  '"' :: escapeChars s.data ++ ['"']

/-- Printed form of the tail of a string array, after the first element. -/
def printStrArrTail : List String → List Char
  | [] => [']']
  | n :: ns => ',' :: printStrChars n ++ printStrArrTail ns

/-- Printed form of a JSON array of strings. -/
def printStrArrChars : List String → List Char
  | [] => ['[', ']']
  | n :: ns => '[' :: printStrChars n ++ printStrArrTail ns

def nullChars : List Char := ['n', 'u', 'l', 'l']

/-! ## The wire protocol data model (`chat.rs` lines 14–34) -/

/-- Model of `enum MsgTypes` with `#[serde(rename_all = "lowercase")]`. -/
inductive MsgTypes where
  | Users
  | Register
  | Message
deriving DecidableEq

/-- Wire name of each `MsgTypes` variant under the lowercase rename. -/
def msgTypeName : MsgTypes → String
  | .Users => "users"
  | .Register => "register"
  | .Message => "message"

/-- Model of `struct WebSocketMessage` with
`#[serde(rename_all = "camelCase")]`: fields `message_type`, `data_array`,
`data` appear on the wire as `messageType`, `dataArray`, `data`. -/
structure WebSocketMessage where
  message_type : MsgTypes
  data_array : Option (List String)
  data : Option String
deriving DecidableEq

/-- Model of `struct MessageData` (`#[derive(Deserialize)]`), the nested
payload of a `message` frame. -/
structure MessageData where
  «from» : String
  message : String
deriving DecidableEq

/-- Decode errors of the `serde_json::from_str` boundary. The Rust code
calls `.unwrap()` on these results, so in `handleMsg` an error becomes a
panic (modelled as `none`). -/
inductive DecodeError where
  | parseFail
  | notObject
  | missingField (f : String)
  | duplicateField (f : String)
  | typeMismatch
  | unknownVariant (v : String)
deriving DecidableEq

deriving instance DecidableEq for Except

/-! ## Derived `Deserialize` semantics -/

/-- Deserializing `MsgTypes` from a JSON value: a string equal to one of the
three lowercase variant names; anything else is rejected (serde rejects
unknown variants rather than ignoring them). -/
def msgTypeFromJson : Json → Except DecodeError MsgTypes
  | .str s =>
    if s = "users" then .ok .Users
    else if s = "register" then .ok .Register
    else if s = "message" then .ok .Message
    else .error (.unknownVariant s)
  | _ => .error .typeMismatch

/-- Deserializing `String`. -/
def strFromJson : Json → Except DecodeError String
  | .str s => .ok s
  | _ => .error .typeMismatch

/-- Deserializing `Vec<String>` element-wise. -/
def strListFromJson : List Json → Except DecodeError (List String)
  | [] => .ok []
  | j :: js =>
    match strFromJson j with
    | .error e => .error e
    | .ok s =>
      match strListFromJson js with
      | .error e => .error e
      | .ok ss => .ok (s :: ss)

/-- Deserializing `Option<Vec<String>>`: `null` is `None`, an array of
strings is `Some`. -/
def optStrArrFromJson : Json → Except DecodeError (Option (List String))
  | .null => .ok none
  | .arr js =>
    match strListFromJson js with
    | .error e => .error e
    | .ok ss => .ok (some ss)
  | _ => .error .typeMismatch

/-- Deserializing `Option<String>`. -/
def optStrFromJson : Json → Except DecodeError (Option String)
  | .null => .ok none
  | .str s => .ok (some s)
  | _ => .error .typeMismatch

/-- Field loop of the derived `Deserialize` for `WebSocketMessage`: slots
are filled as fields arrive, duplicates are an error, unknown keys are
ignored, and a missing `Option` field defaults to `None` while a missing
`messageType` is an error. -/
def wsFromFields : List (String × Json) → Option MsgTypes →
    Option (Option (List String)) → Option (Option String) →
    Except DecodeError WebSocketMessage
  | [], mt?, da?, d? =>
    match mt? with
    | none => .error (.missingField "messageType")
    | some mt => .ok ⟨mt, da?.getD none, d?.getD none⟩
  | (k, v) :: fs, mt?, da?, d? =>
    if k = "messageType" then
      match mt? with
      | some _ => .error (.duplicateField "messageType")
      | none =>
        match msgTypeFromJson v with
        | .error e => .error e
        | .ok mt => wsFromFields fs (some mt) da? d?
    else if k = "dataArray" then
      match da? with
      | some _ => .error (.duplicateField "dataArray")
      | none =>
        match optStrArrFromJson v with
        | .error e => .error e
        | .ok da => wsFromFields fs mt? (some da) d?
    else if k = "data" then
      match d? with
      | some _ => .error (.duplicateField "data")
      | none =>
        match optStrFromJson v with
        | .error e => .error e
        | .ok d => wsFromFields fs mt? da? (some d)
    else wsFromFields fs mt? da? d?

/-- Deserializing `WebSocketMessage` from a JSON value. -/
def wsFromJson : Json → Except DecodeError WebSocketMessage
  | .obj fs => wsFromFields fs none none none
  | _ => .error .notObject

/-- Field loop of the derived `Deserialize` for `MessageData`: both fields
required, duplicates rejected, unknown keys ignored. -/
def mdFromFields : List (String × Json) → Option String → Option String →
    Except DecodeError MessageData
  | [], f?, m? =>
    match f?, m? with
    | none, _ => .error (.missingField "from")
    | _, none => .error (.missingField "message")
    | some f, some m => .ok ⟨f, m⟩
  | (k, v) :: fs, f?, m? =>
    if k = "from" then
      match f? with
      | some _ => .error (.duplicateField "from")
      | none =>
        match strFromJson v with
        | .error e => .error e
        | .ok f => mdFromFields fs (some f) m?
    else if k = "message" then
      match m? with
      | some _ => .error (.duplicateField "message")
      | none =>
        match strFromJson v with
        | .error e => .error e
        | .ok m => mdFromFields fs f? (some m)
    else mdFromFields fs f? m?

/-- Deserializing `MessageData` from a JSON value. -/
def mdFromJson : Json → Except DecodeError MessageData
  | .obj fs => mdFromFields fs none none
  | _ => .error .notObject

/-- Model of `serde_json::from_str::<WebSocketMessage>` (line 87). -/
def wsDecode (s : String) : Except DecodeError WebSocketMessage :=
  match jsonParse s with
  | none => .error .parseFail
  | some j => wsFromJson j

/-- Model of `serde_json::from_str::<MessageData>` (line 106), the nested
decode of a `message` frame's `data` payload. -/
def decodeMessageData (s : String) : Except DecodeError MessageData :=
  match jsonParse s with
  | none => .error .parseFail
  | some j => mdFromJson j

/-! ## Derived `Serialize` semantics (`serde_json::to_string`) -/

/-- Printed `Option<Vec<String>>` field value: serde emits `null` for
`None` (no `skip_serializing_if` is configured). -/
def printOptArr : Option (List String) → List Char
  | none => nullChars
  | some ns => printStrArrChars ns

/-- Printed `Option<String>` field value. -/
def printOptStr : Option String → List Char
  | none => nullChars
  | some s => printStrChars s

/-- Printed characters of `serde_json::to_string(&m)` for a
`WebSocketMessage`: fields in declaration order, camelCase names, `None`
as `null`, compact (no whitespace). -/
def wsEncodeChars (m : WebSocketMessage) : List Char :=
  '\x7b' :: printStrChars "messageType" ++ ':' ::
    printStrChars (msgTypeName m.message_type) ++ ',' ::
    printStrChars "dataArray" ++ ':' :: printOptArr m.data_array ++ ',' ::
    printStrChars "data" ++ ':' :: printOptStr m.data ++ ['\x7d']

/-- Model of `serde_json::to_string(&m).unwrap()`; serialization of this
struct cannot fail. -/
def wsEncode (m : WebSocketMessage) : String :=
  String.mk (wsEncodeChars m)

/-! ## The component state and `update` (`chat.rs` lines 42–136) -/

/-- Model of `struct UserProfile`. -/
structure UserProfile where
  name : String
  avatar : String
deriving DecidableEq

/-- Avatar URL built at line 95–99:
`format!("https://avatars.dicebear.com/api/adventurer-neutral/\x7b\x7d.svg", u)`. -/
def avatarUrl (u : String) : String :=
  "https://avatars.dicebear.com/api/adventurer-neutral/" ++ u ++ ".svg"

/-- UserProfile constructed from one roster name (lines 93–100). -/
def mkProfile (u : String) : UserProfile :=
  ⟨u, avatarUrl u⟩

/-- Protocol-relevant state of `struct Chat`: the roster (`users`) and the
history (`messages`). The `chat_input` node ref, event-bus bridge and
socket handle are external collaborators, modelled at the points of use. -/
structure ChatState where
  users : List UserProfile
  messages : List MessageData
deriving DecidableEq

/-- Dispatch on a decoded frame, the body of the
`match msg.message_type` at lines 88–113. A `.unwrap()` panic is `none`;
otherwise the result is the new state and the `bool` that `update`
returns (whether to rerender). The wildcard arm of the Rust match covers
exactly `MsgTypes::Register`. -/
def processFrame (st : ChatState) (m : WebSocketMessage) :
    Option (ChatState × Bool) :=
  match m.message_type with
  | .Users =>
    some ({ users := (m.data_array.getD []).map mkProfile,
            messages := st.messages }, true)
  | .Message =>
    match m.data with
    | none => none
    | some d =>
      match decodeMessageData d with
      | .error _ => none
      | .ok md =>
        some ({ users := st.users, messages := st.messages ++ [md] }, true)
  | .Register => some (st, false)

/-- Model of the `Msg::HandleMsg(s)` arm of `Chat::update` (lines 86–114):
`serde_json::from_str(&s).unwrap()` panics (`none`) on any decode error,
otherwise the frame is dispatched. -/
def handleMsg (st : ChatState) (s : String) : Option (ChatState × Bool) :=
  match wsDecode s with
  | .error _ => none
  | .ok m => processFrame st m

/-- Sequential processing of already-decoded frames; a panic aborts the
run. -/
def runFrames : ChatState → List WebSocketMessage → Option ChatState
  | st, [] => some st
  | st, m :: ms =>
    match processFrame st m with
    | none => none
    | some (st', _) => runFrames st' ms

/-- Observable effects of the `Msg::SubmitMessage` arm of `Chat::update`
(lines 115–134): the frames handed to the channel, the input field's value
afterwards, the debug log, and the returned rerender flag. `sendOk` is the
outcome of `try_send`; `inputValue` is `self.chat_input.cast(..)`'s value
(`none` when the cast fails). -/
structure SubmitEffect where
  sent : List String
  inputAfter : Option String
  logged : List String
  rerender : Bool
deriving DecidableEq

/-- Model of the `Msg::SubmitMessage` arm: builds a `message` frame from
the input's value, attempts the send, logs on `Err`, then unconditionally
clears the input; always returns `false`. -/
def submitMessage (sendOk : Bool) (inputValue : Option String) :
    SubmitEffect :=
  match inputValue with
  | none => ⟨[], none, [], false⟩
  | some v =>
    ⟨[wsEncode ⟨.Message, none, some v⟩], some "",
      if sendOk then [] else ["error sending to channel"], false⟩

/-- The Register frame built in `Chat::create` (lines 61–65). -/
def registerFrame (username : String) : WebSocketMessage :=
  ⟨.Register, none, some username⟩

/-- Observable effects of `Chat::create` (lines 53–82): the frames handed
to the channel and the initial component state. -/
structure CreateEffect where
  sent : List String
  state : ChatState
deriving DecidableEq

/-- Model of `Chat::create`: one register frame is encoded and handed to
the channel; the state starts with empty roster and history. -/
def chatCreate (username : String) : CreateEffect :=
  ⟨[wsEncode (registerFrame username)], ⟨[], []⟩⟩

/-- First value bound to a key in a parsed JSON object's field list. -/
def lookupField (k : String) : List (String × Json) → Option Json
  | [] => none
  | (k', v) :: fs => if k' = k then some v else lookupField k fs

/-- Length of the name list in an optional `dataArray` payload. -/
def daLen : Option (List String) → Nat
  | none => 0
  | some ns => ns.length

/-- JSON value printed for an `Option (List String)` field. -/
def daJson : Option (List String) → Json
  | none => Json.null
  | some ns => Json.arr (ns.map Json.str)

/-- JSON value printed for an `Option String` field. -/
def dJson : Option String → Json
  | none => Json.null
  | some s => Json.str s

/-! ## Theorems -/

/-- Claim C1 counterexample. The claim asserts that an inbound `message`
frame with a malformed nested payload is dropped with no exception escaping
the decode boundary and the session staying open. In the code, line 106
calls `serde_json::from_str(&msg.data.unwrap()).unwrap()`, so the failed
nested decode panics: `update` has no normal result at all (modelled as
`none`), rather than completing with the frame dropped. -/
theorem c1_counterexample :
    ¬ ∃ r, handleMsg ⟨[], []⟩
      "\x7b\"messageType\":\"message\",\"data\":\"notjson\"\x7d" = some r := by
  intro ⟨r, hr⟩
  have h : handleMsg ⟨[], []⟩
      "\x7b\"messageType\":\"message\",\"data\":\"notjson\"\x7d" = none := by decide
  rw [h] at hr
  exact Option.noConfusion hr

/-- Claim C1 (amended): a `message` frame whose nested `data` payload fails
to decode makes the handler panic on the `.unwrap()` (no successor state is
produced, so nothing is appended to History, but the exception does escape
the decode boundary). -/
theorem c1_message_malformed_panics (st : ChatState)
    (da : Option (List String)) (d : String) (e : DecodeError)
    (h : decodeMessageData d = .error e) :
    processFrame st ⟨.Message, da, some d⟩ = none := by
  simp [processFrame, h]

/-- Witness for `c1_message_malformed_panics` at the nested payload
`"notjson"`. -/
theorem c1_witness :
    decodeMessageData "notjson" = .error .parseFail ∧
      processFrame ⟨[], []⟩ ⟨.Message, none, some "notjson"⟩ = none :=
  ⟨by decide,
    c1_message_malformed_panics ⟨[], []⟩ none "notjson" .parseFail (by decide)⟩

/-- Claim C3 counterexample. The claim asserts that the inbound frame with
`dataArray` equal to `["alice","bob","alice"]` yields a roster with names
`[alice, bob]` (size 2, duplicates collapsed). The code (lines 89–103) maps
the array to profiles with no deduplication, so the roster has the names
`[alice, bob, alice]` (size 3). -/
theorem c3_counterexample :
    ¬ ((handleMsg ⟨[], []⟩
        "\x7b\"messageType\":\"users\",\"dataArray\":[\"alice\",\"bob\",\"alice\"]\x7d").map
          (fun r => r.1.users.map UserProfile.name) = some ["alice", "bob"]) := by
  decide

/-- Claim C3 (amended): the roster after a `users` frame is the
order-preserving map of the frame's name list with duplicates preserved; on
the frame with `dataArray` `["alice","bob","alice"]` the roster has size 3
with names `[alice, bob, alice]`. -/
theorem c3_users_duplicates_kept :
    handleMsg ⟨[], []⟩
        "\x7b\"messageType\":\"users\",\"dataArray\":[\"alice\",\"bob\",\"alice\"]\x7d" =
      some (⟨[mkProfile "alice", mkProfile "bob", mkProfile "alice"], []⟩, true) := by
  decide

/-- Claim C7 counterexample. The claim asserts the register frame's text is
exactly the envelope with `dataArray` omitted. The derived `Serialize` has
no `skip_serializing_if`, so serde emits the `None` field as
`"dataArray":null`. -/
theorem c7_counterexample :
    (chatCreate "alice").sent ≠ ["\x7b\"messageType\":\"register\",\"data\":\"alice\"\x7d"] := by
  decide

/-- Claim C7 (amended): for a session constructed with identity `alice`,
exactly one outbound frame is handed to the channel, and its text is the
register envelope with the absent `dataArray` serialized as an explicit
`null` field. -/
theorem c7_register_on_create :
    (chatCreate "alice").sent =
        ["\x7b\"messageType\":\"register\",\"dataArray\":null,\"data\":\"alice\"\x7d"] ∧
      (chatCreate "alice").sent.length = 1 := by
  exact ⟨by decide, rfl⟩

/-- Claim C8 counterexample. The claim asserts that when the outbound send
fails the typed input is not discarded. In the code (lines 115–134) the
`Err` case only logs, and `input.set_value("")` runs unconditionally, so
the input field is cleared even on a failed send. -/
theorem c8_counterexample :
    (submitMessage false (some "hello")).inputAfter ≠ some "hello" := by
  decide

/-- Claim C8 (amended): a failed outbound send is only logged; the submit
behaves otherwise exactly as a successful one — the frame is handed to the
channel, the typed input is cleared unconditionally, and no failure is
surfaced (`update` returns `false`, requesting no rerender). -/
theorem c8_send_failure_only_logged (ok : Bool) (v : String) :
    (submitMessage ok (some v)).inputAfter = some "" ∧
      (submitMessage ok (some v)).sent = [wsEncode ⟨.Message, none, some v⟩] ∧
      (submitMessage ok (some v)).rerender = false ∧
      (submitMessage false (some v)).logged = ["error sending to channel"] :=
  ⟨rfl, rfl, rfl, rfl⟩

/-- Claim C9: a successfully decoded inbound frame whose `messageType` is
neither `users` nor `message` — that is, a `register` frame, the only
remaining variant — is a no-op: the state is unchanged and `update` returns
`false` (no rerender), distinct from a decode error (which panics). -/
theorem c9_register_frame_noop (st : ChatState) (s : String)
    (m : WebSocketMessage) (hdec : wsDecode s = .ok m)
    (hty : m.message_type = .Register) :
    handleMsg st s = some (st, false) := by
  simp [handleMsg, hdec, processFrame, hty]

/-- Witness for `c9_register_frame_noop` on a concrete inbound register
frame. -/
theorem c9_witness :
    handleMsg ⟨[mkProfile "a"], []⟩
        "\x7b\"messageType\":\"register\",\"data\":\"x\"\x7d" =
      some (⟨[mkProfile "a"], []⟩, false) :=
  c9_register_frame_noop ⟨[mkProfile "a"], []⟩
    "\x7b\"messageType\":\"register\",\"data\":\"x\"\x7d"
    ⟨.Register, none, some "x"⟩ (by decide) rfl

/-- Claim C10: an inbound `users` frame whose `dataArray` field is missing,
or explicitly `null`, replaces the roster with the empty sequence (via
`unwrap_or_default()` at line 90), rather than being rejected or leaving
the roster unchanged. -/
theorem c10_users_absent_dataarray (st : ChatState) :
    handleMsg st "\x7b\"messageType\":\"users\"\x7d" =
        some (⟨[], st.messages⟩, true) ∧
      handleMsg st "\x7b\"messageType\":\"users\",\"dataArray\":null\x7d" =
        some (⟨[], st.messages⟩, true) := by
  have h1 : wsDecode "\x7b\"messageType\":\"users\"\x7d" =
      .ok ⟨.Users, none, none⟩ := by decide
  have h2 : wsDecode "\x7b\"messageType\":\"users\",\"dataArray\":null\x7d" =
      .ok ⟨.Users, none, none⟩ := by decide
  refine ⟨?_, ?_⟩ <;> simp [handleMsg, h1, h2, processFrame]

/-- Helper: a `messageType` field holding an unrecognized variant string
makes the `WebSocketMessage` field loop fail, whatever the slot state and
whatever the other fields hold. -/
theorem wsFromFields_unknown_type (fs : List (String × Json)) (t : String)
    (h : lookupField "messageType" fs = some (Json.str t))
    (h1 : t ≠ "users") (h2 : t ≠ "register") (h3 : t ≠ "message") :
    ∀ mt? da? d?, ∃ e, wsFromFields fs mt? da? d? = .error e := by
  induction fs with
  | nil => exact absurd h (by simp [lookupField])
  | cons kv fs ih =>
    obtain ⟨k, v⟩ := kv
    intro mt? da? d?
    by_cases hk : k = "messageType"
    · subst hk
      have hv : v = Json.str t := by
        simpa [lookupField] using h
      subst hv
      cases mt? with
      | some mt => exact ⟨.duplicateField "messageType", by simp [wsFromFields]⟩
      | none =>
        refine ⟨.unknownVariant t, ?_⟩
        simp [wsFromFields, msgTypeFromJson, h1, h2, h3]
    · have h' : lookupField "messageType" fs = some (Json.str t) := by
        simpa [lookupField, hk] using h
      by_cases hda : k = "dataArray"
      · subst hda
        cases da? with
        | some da => exact ⟨.duplicateField "dataArray", by simp [wsFromFields, hk]⟩
        | none =>
          cases hv : optStrArrFromJson v with
          | error e => exact ⟨e, by simp [wsFromFields, hk, hv]⟩
          | ok da =>
            obtain ⟨e, he⟩ := ih h' mt? (some da) d?
            exact ⟨e, by simp [wsFromFields, hk, hv, he]⟩
      · by_cases hd : k = "data"
        · subst hd
          cases d? with
          | some d => exact ⟨.duplicateField "data", by simp [wsFromFields, hk, hda]⟩
          | none =>
            cases hv : optStrFromJson v with
            | error e => exact ⟨e, by simp [wsFromFields, hk, hda, hv]⟩
            | ok d =>
              obtain ⟨e, he⟩ := ih h' mt? da? (some d)
              exact ⟨e, by simp [wsFromFields, hk, hda, hv, he]⟩
        · obtain ⟨e, he⟩ := ih h' mt? da? d?
          exact ⟨e, by simp [wsFromFields, hk, hda, hd, he]⟩

/-- Claim C2: decoding fails closed. A raw text frame that is not
well-formed JSON fails with `DecodeError.parseFail`; an envelope whose
`messageType` is not one of the three recognized values is rejected (the
decode errors rather than ignoring the field); and on any decode error the
handler commits no state change — the `.unwrap()` panics before any write,
so no successor state (with a roster or history write) is produced. -/
theorem c2_decode_fails_closed :
    (∀ (st : ChatState) (s : String) (e : DecodeError),
        wsDecode s = .error e → handleMsg st s = none) ∧
      (∀ s : String, jsonParse s = none → wsDecode s = .error .parseFail) ∧
      (∀ (fs : List (String × Json)) (t : String),
        lookupField "messageType" fs = some (Json.str t) →
        t ≠ "users" → t ≠ "register" → t ≠ "message" →
        ∃ e, wsFromJson (Json.obj fs) = .error e) := by
  refine ⟨?_, ?_, ?_⟩
  · intro st s e h
    simp [handleMsg, h]
  · intro s h
    simp [wsDecode, h]
  · intro fs t h h1 h2 h3
    simpa [wsFromJson] using wsFromFields_unknown_type fs t h h1 h2 h3 none none none

/-- Witness for `c2_decode_fails_closed`: the ill-formed text `"oops"` is
rejected and commits nothing, and an envelope with `messageType` `"ping"`
is rejected. -/
theorem c2_witness :
    handleMsg ⟨[], []⟩ "oops" = none ∧
      wsDecode "oops" = .error .parseFail ∧
      ∃ e, wsFromJson (Json.obj [("messageType", Json.str "ping")]) = .error e :=
  ⟨c2_decode_fails_closed.1 ⟨[], []⟩ "oops" .parseFail (by decide),
    c2_decode_fails_closed.2.1 "oops" rfl,
    c2_decode_fails_closed.2.2 [("messageType", Json.str "ping")] "ping" rfl
      (by decide) (by decide) (by decide)⟩

/-- Claim C4: the roster is replaced wholesale on every `users` frame. For
any starting state and any sequence of `users` frames followed by a final
`users` frame, the roster after processing is exactly the order-preserving
map of the final frame's name list through the avatar-URL profile
constructor, independent of all earlier roster content; the history is
untouched. -/
theorem c4_users_wholesale_replace (st : ChatState)
    (frames : List WebSocketMessage) (f : WebSocketMessage)
    (hty : ∀ m ∈ frames, m.message_type = .Users)
    (hf : f.message_type = .Users) :
    runFrames st (frames ++ [f]) =
      some ⟨(f.data_array.getD []).map mkProfile, st.messages⟩ := by
  induction frames generalizing st with
  | nil => simp [runFrames, processFrame, hf]
  | cons m ms ih =>
    have hm : m.message_type = .Users := hty m (by simp)
    have hms : ∀ m' ∈ ms, m'.message_type = .Users := fun m' hm' => hty m' (by simp [hm'])
    simp only [List.cons_append, runFrames, processFrame, hm]
    exact ih ⟨(m.data_array.getD []).map mkProfile, st.messages⟩ hms

/-- Witness for `c4_users_wholesale_replace`: a non-trivial starting state
and an earlier `users` frame leave no trace in the final roster. -/
theorem c4_witness :
    runFrames ⟨[mkProfile "q"], [⟨"q", "m"⟩]⟩
        ([⟨.Users, some ["z"], none⟩] ++ [⟨.Users, some ["b", "c"], none⟩]) =
      some ⟨[mkProfile "b", mkProfile "c"], [⟨"q", "m"⟩]⟩ :=
  c4_users_wholesale_replace ⟨[mkProfile "q"], [⟨"q", "m"⟩]⟩
    [⟨.Users, some ["z"], none⟩] ⟨.Users, some ["b", "c"], none⟩
    (by decide) rfl

/-- Claim C5: every sequence of valid `message` frames appends its decoded
payloads to the history in arrival order, regardless of the roster state at
each arrival (the starting state is arbitrary and the roster is never
consulted); the number of appended entries equals the number of frames. -/
theorem c5_messages_append_in_order (st : ChatState)
    (frames : List WebSocketMessage) (mds : List MessageData)
    (h : List.Forall₂ (fun f md => f.message_type = .Message ∧
      ∃ d, f.data = some d ∧ decodeMessageData d = .ok md) frames mds) :
    runFrames st frames = some ⟨st.users, st.messages ++ mds⟩ ∧
      frames.length = mds.length := by
  refine ⟨?_, h.length_eq⟩
  induction h generalizing st with
  | nil => simp [runFrames]
  | cons hfm hrest ih =>
    obtain ⟨hty, d, hd, hdec⟩ := hfm
    simp only [runFrames, processFrame, hty, hd, hdec]
    rw [ih ⟨st.users, st.messages ++ [_]⟩]
    simp

/-- Witness for `c5_messages_append_in_order`: the spec's Scenario C — a
`message` frame from `bob` with an empty prior roster still appends
`⟨bob, hi⟩` to the history. -/
theorem c5_witness :
    runFrames ⟨[], []⟩ [⟨.Message, none, some "\x7b\"from\":\"bob\",\"message\":\"hi\"\x7d"⟩] =
        some ⟨[], [] ++ [⟨"bob", "hi"⟩]⟩ ∧
      ([⟨.Message, none, some "\x7b\"from\":\"bob\",\"message\":\"hi\"\x7d"⟩] :
        List WebSocketMessage).length = ([⟨"bob", "hi"⟩] : List MessageData).length :=
  c5_messages_append_in_order ⟨[], []⟩
    [⟨.Message, none, some "\x7b\"from\":\"bob\",\"message\":\"hi\"\x7d"⟩]
    [⟨"bob", "hi"⟩]
    (List.Forall₂.cons ⟨rfl, "\x7b\"from\":\"bob\",\"message\":\"hi\"\x7d", rfl, by decide⟩
      List.Forall₂.nil)



/-! ## Roundtrip of the derived serializer and deserializer (Claim C6) -/

theorem hexVal_hexDigit : ∀ n, n < 16 → hexVal (hexDigit n) = some n := by decide

theorem parseStringBody_escapeChars (cs : List Char) (rest : List Char) :
    parseStringBody (escapeChars cs ++ '"' :: rest) = some (cs, rest) := by
  induction cs with
  | nil =>
    show parseStringBody ('"' :: rest) = some ([], rest)
    rw [parseStringBody.eq_def]
    simp
  | cons c cs ih =>
    show parseStringBody ((escapeChar c ++ escapeChars cs) ++ '"' :: rest) = some (c :: cs, rest)
    rw [List.append_assoc]
    by_cases h1 : c = '"'
    · subst h1
      rw [escapeChar, if_pos rfl, List.cons_append, List.cons_append, List.nil_append,
        parseStringBody.eq_def]
      simp [escChar, ih]
    · by_cases h2 : c = '\\'
      · subst h2
        rw [escapeChar]
        rw [if_neg (by decide), if_pos rfl, List.cons_append, List.cons_append, List.nil_append,
          parseStringBody.eq_def]
        simp [escChar, ih]
      · by_cases h3 : c.toNat = 8
        · have hc : Char.ofNat 8 = c := by
            rw [← h3, Char.ofNat_toNat]
          rw [escapeChar, if_neg h1, if_neg h2, if_pos h3, List.cons_append, List.cons_append,
            List.nil_append, parseStringBody.eq_def]
          simp [escChar, ih]
          exact hc
        · by_cases h4 : c = '\t'
          · subst h4
            rw [escapeChar, if_neg h1, if_neg h2, if_neg h3, if_pos rfl, List.cons_append,
              List.cons_append, List.nil_append, parseStringBody.eq_def]
            simp [escChar, ih]
          · by_cases h5 : c = '\n'
            · subst h5
              rw [escapeChar, if_neg h1, if_neg h2, if_neg h3, if_neg h4, if_pos rfl,
                List.cons_append, List.cons_append, List.nil_append, parseStringBody.eq_def]
              simp [escChar, ih]
            · by_cases h6 : c.toNat = 12
              · have hc : Char.ofNat 12 = c := by
                  rw [← h6, Char.ofNat_toNat]
                rw [escapeChar, if_neg h1, if_neg h2, if_neg h3, if_neg h4, if_neg h5, if_pos h6,
                  List.cons_append, List.cons_append, List.nil_append, parseStringBody.eq_def]
                simp [escChar, ih]
                exact hc
              · by_cases h7 : c = '\r'
                · subst h7
                  rw [escapeChar, if_neg h1, if_neg h2, if_neg h3, if_neg h4, if_neg h5,
                    if_neg h6, if_pos rfl, List.cons_append, List.cons_append, List.nil_append,
                    parseStringBody.eq_def]
                  simp [escChar, ih]
                · by_cases h8 : c.toNat < 32
                  · have hhi : c.toNat / 16 < 16 := by omega
                    have hlo : c.toNat % 16 < 16 := by omega
                    have e0 : hexVal '0' = some 0 := by decide
                    have e1 := hexVal_hexDigit _ hhi
                    have e2 := hexVal_hexDigit _ hlo
                    have hv : Nat.isValidChar (c.toNat / 16 * 16 + c.toNat % 16) :=
                      Or.inl (by omega)
                    have hn : c.toNat / 16 * 16 + c.toNat % 16 = c.toNat := by omega
                    rw [escapeChar, if_neg h1, if_neg h2, if_neg h3, if_neg h4, if_neg h5,
                      if_neg h6, if_neg h7, if_pos h8]
                    rw [List.cons_append, List.cons_append, List.cons_append, List.cons_append,
                      List.cons_append, List.cons_append, List.nil_append, parseStringBody.eq_def]
                    simp [e0, e1, e2, ih]
                    rw [hn]
                    exact ⟨Or.inl (by omega), Char.ofNat_toNat c⟩
                  · rw [escapeChar, if_neg h1, if_neg h2, if_neg h3, if_neg h4, if_neg h5,
                      if_neg h6, if_neg h7, if_neg h8, List.cons_append, List.nil_append,
                      parseStringBody.eq_def]
                    simp [h1, h2, h8, ih]

/-- Unfolding of `parseValue` at a successor fuel. -/
theorem parseValue_succ (fuel : Nat) (cs : List Char) :
    parseValue (fuel + 1) cs = match skipWs cs with
    | [] => none
    | c :: rest =>
      if c = 'n' then
        match expectLit ['u', 'l', 'l'] rest with
        | some r => some (Json.null, r)
        | none => none
      else if c = 't' then
        match expectLit ['r', 'u', 'e'] rest with
        | some r => some (Json.bool true, r)
        | none => none
      else if c = 'f' then
        match expectLit ['a', 'l', 's', 'e'] rest with
        | some r => some (Json.bool false, r)
        | none => none
      else if c = '"' then
        match parseStringBody rest with
        | some (s, r) => some (Json.str (String.mk s), r)
        | none => none
      else if c = '[' then
        match skipWs rest with
        | ']' :: r => some (Json.arr [], r)
        | cs' =>
          match parseElems fuel cs' with
          | some (vs, r) => some (Json.arr vs, r)
          | none => none
      else if c = '\x7b' then
        match skipWs rest with
        | '\x7d' :: r => some (Json.obj [], r)
        | cs' =>
          match parseFields fuel cs' with
          | some (fs, r) => some (Json.obj fs, r)
          | none => none
      else if c = '-' || c.isDigit then parseNumber (c :: rest)
      else none := rfl

/-- Unfolding of `parseElems` at a successor fuel. -/
theorem parseElems_succ (fuel : Nat) (cs : List Char) :
    parseElems (fuel + 1) cs = match parseValue fuel cs with
    | none => none
    | some (v, r) =>
      match skipWs r with
      | ',' :: r' =>
        match parseElems fuel r' with
        | some (vs, r2) => some (v :: vs, r2)
        | none => none
      | ']' :: r' => some ([v], r')
      | _ => none := rfl

/-- Unfolding of `parseFields` at a successor fuel. -/
theorem parseFields_succ (fuel : Nat) (cs : List Char) :
    parseFields (fuel + 1) cs = match skipWs cs with
    | '"' :: r =>
      match parseStringBody r with
      | none => none
      | some (k, r1) =>
        match skipWs r1 with
        | ':' :: r2 =>
          match parseValue fuel r2 with
          | none => none
          | some (v, r3) =>
            match skipWs r3 with
            | ',' :: r4 =>
              match parseFields fuel r4 with
              | some (fs, r5) => some ((String.mk k, v) :: fs, r5)
              | none => none
            | '\x7d' :: r4 => some ([(String.mk k, v)], r4)
            | _ => none
        | _ => none
    | _ => none := rfl

theorem parseValue_str (fuel : Nat) (s : String) (rest : List Char) :
    parseValue (fuel + 1) ('"' :: escapeChars s.data ++ '"' :: rest) =
      some (Json.str s, rest) := by
  rw [parseValue_succ]
  simp [skipWs, isWs, parseStringBody_escapeChars]

theorem parseValue_null (fuel : Nat) (rest : List Char) :
    parseValue (fuel + 1) (nullChars ++ rest) = some (Json.null, rest) := by
  rw [parseValue_succ]
  simp [nullChars, skipWs, isWs, expectLit]

theorem parseElems_strs (n : String) (ns : List String) (fuel : Nat) (rest : List Char) :
    parseElems (ns.length + fuel + 2) (printStrChars n ++ (printStrArrTail ns ++ rest)) =
      some ((n :: ns).map Json.str, rest) := by
  induction ns generalizing n rest with
  | nil =>
    have harith : ([] : List String).length + fuel + 2 = (fuel + 1) + 1 := by simp
    have hshape : printStrChars n ++ (printStrArrTail [] ++ rest) =
        '"' :: escapeChars n.data ++ '"' :: ']' :: rest := by
      simp [printStrChars, printStrArrTail]
    rw [harith, hshape, parseElems_succ]
    rw [parseValue_str fuel n (']' :: rest)]
    simp [skipWs, isWs]
  | cons n2 ns2 ih =>
    have harith : (n2 :: ns2).length + fuel + 2 = (ns2.length + fuel + 2) + 1 := by
      simp only [List.length_cons]
      omega
    have hshape : printStrChars n ++ (printStrArrTail (n2 :: ns2) ++ rest) =
        '"' :: escapeChars n.data ++ '"' :: ',' ::
          (printStrChars n2 ++ (printStrArrTail ns2 ++ rest)) := by
      simp [printStrChars, printStrArrTail]
    rw [harith, hshape, parseElems_succ]
    have harith2 : ns2.length + fuel + 2 = (ns2.length + fuel + 1) + 1 := by omega
    have hv := parseValue_str (ns2.length + fuel + 1) n
      (',' :: (printStrChars n2 ++ (printStrArrTail ns2 ++ rest)))
    rw [← harith2] at hv
    rw [hv]
    have hrec := ih n2 rest
    simp [skipWs, isWs, hrec]

theorem parseValue_strArr (ns : List String) (fuel : Nat) (rest : List Char) :
    parseValue (ns.length + fuel + 3) (printStrArrChars ns ++ rest) =
      some (Json.arr (ns.map Json.str), rest) := by
  cases ns with
  | nil =>
    have harith : ([] : List String).length + fuel + 3 = (fuel + 2) + 1 := by simp
    rw [harith, parseValue_succ]
    simp [printStrArrChars, skipWs, isWs]
  | cons n ns2 =>
    have harith : (n :: ns2).length + fuel + 3 = (ns2.length + (fuel + 1) + 2) + 1 := by
      simp only [List.length_cons]
      omega
    have hshape : printStrArrChars (n :: ns2) ++ rest =
        '[' :: (printStrChars n ++ (printStrArrTail ns2 ++ rest)) := by
      simp [printStrArrChars]
    rw [harith, hshape, parseValue_succ]
    have hrec := parseElems_strs n ns2 (fuel + 1) rest
    have hhead : printStrChars n ++ (printStrArrTail ns2 ++ rest) =
        '"' :: (escapeChars n.data ++ ('"' :: (printStrArrTail ns2 ++ rest))) := by
      simp [printStrChars]
    simp [skipWs, isWs, hhead]
    rw [hhead] at hrec
    simp [hrec]

/-- One `"key": value` field followed by a comma and further fields. -/
theorem parseFields_cons (fuel : Nat) (key : String) (valChars tail : List Char)
    (v : Json) (fs : List (String × Json)) (rest : List Char)
    (hval : parseValue fuel (valChars ++ ',' :: tail) = some (v, ',' :: tail))
    (hrest : parseFields fuel tail = some (fs, rest)) :
    parseFields (fuel + 1) (printStrChars key ++ ':' :: valChars ++ ',' :: tail) =
      some ((key, v) :: fs, rest) := by
  rw [parseFields_succ]
  have hshape : printStrChars key ++ ':' :: valChars ++ ',' :: tail =
      '"' :: (escapeChars key.data ++ '"' :: (':' :: (valChars ++ ',' :: tail))) := by
    simp [printStrChars]
  rw [hshape]
  have hbody := parseStringBody_escapeChars key.data (':' :: (valChars ++ ',' :: tail))
  simp [skipWs, isWs, hbody, hval, hrest]

/-- The last `"key": value` field of an object, followed by the closing
brace. -/
theorem parseFields_last (fuel : Nat) (key : String) (valChars rest : List Char)
    (v : Json)
    (hval : parseValue fuel (valChars ++ '\x7d' :: rest) = some (v, '\x7d' :: rest)) :
    parseFields (fuel + 1) (printStrChars key ++ ':' :: valChars ++ '\x7d' :: rest) =
      some ([(key, v)], rest) := by
  rw [parseFields_succ]
  have hshape : printStrChars key ++ ':' :: valChars ++ '\x7d' :: rest =
      '"' :: (escapeChars key.data ++ '"' :: (':' :: (valChars ++ '\x7d' :: rest))) := by
    simp [printStrChars]
  rw [hshape]
  have hbody := parseStringBody_escapeChars key.data (':' :: (valChars ++ '\x7d' :: rest))
  simp [skipWs, isWs, hbody, hval]

/-- Opening an object whose first field key follows immediately. -/
theorem parseValue_obj (fuel : Nat) (key : String) (cs2 : List Char)
    (fs : List (String × Json)) (rest : List Char)
    (h : parseFields fuel (printStrChars key ++ cs2) = some (fs, rest)) :
    parseValue (fuel + 1) ('\x7b' :: (printStrChars key ++ cs2)) =
      some (Json.obj fs, rest) := by
  rw [parseValue_succ]
  have hhead : printStrChars key ++ cs2 = '"' :: (escapeChars key.data ++ ('"' :: cs2)) := by
    simp [printStrChars]
  rw [hhead] at h ⊢
  simp [skipWs, isWs, h]

theorem parseValue_printStr (fuel : Nat) (s : String) (rest : List Char) :
    parseValue (fuel + 1) (printStrChars s ++ rest) = some (Json.str s, rest) := by
  have h : printStrChars s ++ rest = '"' :: escapeChars s.data ++ '"' :: rest := by
    simp [printStrChars]
  rw [h, parseValue_str]

theorem parseValue_optArr (da : Option (List String)) (fuel : Nat) (rest : List Char) :
    parseValue (daLen da + fuel + 3) (printOptArr da ++ rest) =
      some (daJson da, rest) := by
  cases da with
  | none =>
    have harith : daLen none + fuel + 3 = (fuel + 2) + 1 := by simp [daLen]
    rw [harith]
    exact parseValue_null (fuel + 2) rest
  | some ns =>
    show parseValue (daLen (some ns) + fuel + 3) (printStrArrChars ns ++ rest) = _
    have harith : daLen (some ns) + fuel + 3 = ns.length + fuel + 3 := by simp [daLen]
    rw [harith]
    exact parseValue_strArr ns fuel rest

theorem parseValue_optStr (d : Option String) (fuel : Nat) (rest : List Char) :
    parseValue (fuel + 1) (printOptStr d ++ rest) = some (dJson d, rest) := by
  cases d with
  | none => exact parseValue_null fuel rest
  | some s => exact parseValue_printStr fuel s rest

theorem printStrChars_len (s : String) : 2 ≤ (printStrChars s).length := by
  simp [printStrChars]

theorem printStrArrTail_len (ns : List String) :
    ns.length + 1 ≤ (printStrArrTail ns).length := by
  induction ns with
  | nil => simp [printStrArrTail]
  | cons n ns ih =>
    have := printStrChars_len n
    simp only [printStrArrTail, List.length_cons, List.length_append]
    omega

theorem printOptArr_len (da : Option (List String)) :
    daLen da + 1 ≤ (printOptArr da).length := by
  cases da with
  | none => simp [daLen, printOptArr, nullChars]
  | some ns =>
    cases ns with
    | nil => simp [daLen, printOptArr, printStrArrChars]
    | cons n ns2 =>
      have h1 := printStrChars_len n
      have h2 := printStrArrTail_len ns2
      simp only [daLen, printOptArr, printStrArrChars, List.length_cons, List.length_append]
      omega

theorem wsEncodeChars_len (m : WebSocketMessage) :
    daLen m.data_array + 5 ≤ (wsEncodeChars m).length := by
  have h1 := printOptArr_len m.data_array
  have h2 := printStrChars_len (msgTypeName m.message_type)
  simp only [wsEncodeChars, List.length_cons, List.length_append]
  omega

theorem strListFromJson_map (ns : List String) :
    strListFromJson (ns.map Json.str) = .ok ns := by
  induction ns with
  | nil => rfl
  | cons n ns ih => simp [strListFromJson, strFromJson, ih]

theorem optStrArrFromJson_daJson (da : Option (List String)) :
    optStrArrFromJson (daJson da) = .ok da := by
  cases da with
  | none => rfl
  | some ns => simp [daJson, optStrArrFromJson, strListFromJson_map]

theorem optStrFromJson_dJson (d : Option String) :
    optStrFromJson (dJson d) = .ok d := by
  cases d <;> rfl

theorem msgTypeFromJson_name (t : MsgTypes) :
    msgTypeFromJson (Json.str (msgTypeName t)) = .ok t := by
  cases t <;> decide

/-- Claim C6: decoding is a left inverse of encoding. For every
`WebSocketMessage` value — in particular every constructible Register or
Message frame — serializing with the derived `Serialize` and parsing the
resulting text back with the derived `Deserialize` returns exactly the
original frame. -/
theorem c6_decode_encode_roundtrip (m : WebSocketMessage) :
    wsDecode (wsEncode m) = .ok m := by
  obtain ⟨t, da, d⟩ := m
  -- Fuel accounting: the parser is run with fuel `length + 1`, which the
  -- length bound shows is at least `daLen da + 6`.
  obtain ⟨k, hk⟩ : ∃ k, (wsEncodeChars ⟨t, da, d⟩).length + 1 = daLen da + 6 + k := by
    have := wsEncodeChars_len ⟨t, da, d⟩
    exact ⟨(wsEncodeChars ⟨t, da, d⟩).length + 1 - (daLen da + 6), by simp at this ⊢; omega⟩
  -- The innermost field: "data": <d> followed by the closing brace.
  have h3 : parseFields (daLen da + 3 + k)
      (printStrChars "data" ++ ':' :: printOptStr d ++ '\x7d' :: []) =
      some ([("data", dJson d)], []) := by
    have harith : daLen da + 3 + k = (daLen da + 2 + k) + 1 := by omega
    rw [harith]
    refine parseFields_last (daLen da + 2 + k) "data" (printOptStr d) [] (dJson d) ?_
    have harith2 : daLen da + 2 + k = (daLen da + 1 + k) + 1 := by omega
    rw [harith2]
    exact parseValue_optStr d (daLen da + 1 + k) ('\x7d' :: [])
  -- The middle field: "dataArray": <da>.
  have h2 : parseFields (daLen da + 4 + k)
      (printStrChars "dataArray" ++ ':' :: printOptArr da ++ ',' ::
        (printStrChars "data" ++ ':' :: printOptStr d ++ '\x7d' :: [])) =
      some ([("dataArray", daJson da), ("data", dJson d)], []) := by
    have harith : daLen da + 4 + k = (daLen da + 3 + k) + 1 := by omega
    rw [harith]
    refine parseFields_cons (daLen da + 3 + k) "dataArray" (printOptArr da) _
      (daJson da) _ [] ?_ h3
    have harith2 : daLen da + 3 + k = daLen da + k + 3 := by omega
    rw [harith2]
    exact parseValue_optArr da k _
  -- The first field: "messageType": "<name>".
  have h1 : parseFields (daLen da + 5 + k)
      (printStrChars "messageType" ++ ':' :: printStrChars (msgTypeName t) ++ ',' ::
        (printStrChars "dataArray" ++ ':' :: printOptArr da ++ ',' ::
          (printStrChars "data" ++ ':' :: printOptStr d ++ '\x7d' :: []))) =
      some ([("messageType", Json.str (msgTypeName t)),
        ("dataArray", daJson da), ("data", dJson d)], []) := by
    have harith : daLen da + 5 + k = (daLen da + 4 + k) + 1 := by omega
    rw [harith]
    refine parseFields_cons (daLen da + 4 + k) "messageType"
      (printStrChars (msgTypeName t)) _ (Json.str (msgTypeName t)) _ [] ?_ h2
    have harith2 : daLen da + 4 + k = (daLen da + 3 + k) + 1 := by omega
    rw [harith2]
    exact parseValue_printStr (daLen da + 3 + k) (msgTypeName t) _
  -- The full envelope.
  have htop : parseValue (daLen da + 6 + k) (wsEncodeChars ⟨t, da, d⟩) =
      some (Json.obj [("messageType", Json.str (msgTypeName t)),
        ("dataArray", daJson da), ("data", dJson d)], []) := by
    have harith : daLen da + 6 + k = (daLen da + 5 + k) + 1 := by omega
    have hchars : wsEncodeChars ⟨t, da, d⟩ =
        '\x7b' :: (printStrChars "messageType" ++
          (':' :: printStrChars (msgTypeName t) ++ ',' ::
            (printStrChars "dataArray" ++ ':' :: printOptArr da ++ ',' ::
              (printStrChars "data" ++ ':' :: printOptStr d ++ '\x7d' :: [])))) := by
      simp [wsEncodeChars]
    rw [harith, hchars]
    exact parseValue_obj (daLen da + 5 + k) "messageType" _ _ [] h1
  -- Put it together.
  have hparse : jsonParse (wsEncode ⟨t, da, d⟩) =
      some (Json.obj [("messageType", Json.str (msgTypeName t)),
        ("dataArray", daJson da), ("data", dJson d)]) := by
    have hlen : (wsEncode ⟨t, da, d⟩).length = (wsEncodeChars ⟨t, da, d⟩).length := rfl
    have hdata : (wsEncode ⟨t, da, d⟩).data = wsEncodeChars ⟨t, da, d⟩ := rfl
    simp only [jsonParse, hlen, hdata, hk, htop]
    simp [skipWs]
  simp only [wsDecode, hparse, wsFromJson]
  simp [wsFromFields, msgTypeFromJson_name, optStrArrFromJson_daJson, optStrFromJson_dJson]

end YewChat
